import Mathlib

set_option maxRecDepth 8192

namespace Aurora

/-- JSON-representable Python values, as stored in record and plan files.
Python `int` is modelled by `Int`, Python `float` exactly by `Rat`
(no claim below depends on binary rounding), and Python dicts by
insertion-ordered association lists. -/
inductive Json where
  | null
  | bool (b : Bool)
  | int (n : Int)
  | float (q : Rat)
  | str (s : String)
  | arr (elems : List Json)
  | obj (fields : List (String × Json))

mutual

def Json.decEq : (a b : Json) → Decidable (a = b)
  | .null, .null => .isTrue rfl
  | .bool x, .bool y =>
    if h : x = y then .isTrue (by rw [h]) else .isFalse (fun hh => by injection hh with h2; exact h h2)
  | .int x, .int y =>
    if h : x = y then .isTrue (by rw [h]) else .isFalse (fun hh => by injection hh with h2; exact h h2)
  | .float x, .float y =>
    if h : x = y then .isTrue (by rw [h]) else .isFalse (fun hh => by injection hh with h2; exact h h2)
  | .str x, .str y =>
    if h : x = y then .isTrue (by rw [h]) else .isFalse (fun hh => by injection hh with h2; exact h h2)
  | .arr xs, .arr ys =>
    match Json.decEqL xs ys with
    | .isTrue h => .isTrue (by rw [h])
    | .isFalse h => .isFalse (fun hh => by injection hh with h2; exact h h2)
  | .obj xs, .obj ys =>
    match Json.decEqF xs ys with
    | .isTrue h => .isTrue (by rw [h])
    | .isFalse h => .isFalse (fun hh => by injection hh with h2; exact h h2)
  | .null, .bool _ => .isFalse (fun h => nomatch h)
  | .null, .int _ => .isFalse (fun h => nomatch h)
  | .null, .float _ => .isFalse (fun h => nomatch h)
  | .null, .str _ => .isFalse (fun h => nomatch h)
  | .null, .arr _ => .isFalse (fun h => nomatch h)
  | .null, .obj _ => .isFalse (fun h => nomatch h)
  | .bool _, .null => .isFalse (fun h => nomatch h)
  | .bool _, .int _ => .isFalse (fun h => nomatch h)
  | .bool _, .float _ => .isFalse (fun h => nomatch h)
  | .bool _, .str _ => .isFalse (fun h => nomatch h)
  | .bool _, .arr _ => .isFalse (fun h => nomatch h)
  | .bool _, .obj _ => .isFalse (fun h => nomatch h)
  | .int _, .null => .isFalse (fun h => nomatch h)
  | .int _, .bool _ => .isFalse (fun h => nomatch h)
  | .int _, .float _ => .isFalse (fun h => nomatch h)
  | .int _, .str _ => .isFalse (fun h => nomatch h)
  | .int _, .arr _ => .isFalse (fun h => nomatch h)
  | .int _, .obj _ => .isFalse (fun h => nomatch h)
  | .float _, .null => .isFalse (fun h => nomatch h)
  | .float _, .bool _ => .isFalse (fun h => nomatch h)
  | .float _, .int _ => .isFalse (fun h => nomatch h)
  | .float _, .str _ => .isFalse (fun h => nomatch h)
  | .float _, .arr _ => .isFalse (fun h => nomatch h)
  | .float _, .obj _ => .isFalse (fun h => nomatch h)
  | .str _, .null => .isFalse (fun h => nomatch h)
  | .str _, .bool _ => .isFalse (fun h => nomatch h)
  | .str _, .int _ => .isFalse (fun h => nomatch h)
  | .str _, .float _ => .isFalse (fun h => nomatch h)
  | .str _, .arr _ => .isFalse (fun h => nomatch h)
  | .str _, .obj _ => .isFalse (fun h => nomatch h)
  | .arr _, .null => .isFalse (fun h => nomatch h)
  | .arr _, .bool _ => .isFalse (fun h => nomatch h)
  | .arr _, .int _ => .isFalse (fun h => nomatch h)
  | .arr _, .float _ => .isFalse (fun h => nomatch h)
  | .arr _, .str _ => .isFalse (fun h => nomatch h)
  | .arr _, .obj _ => .isFalse (fun h => nomatch h)
  | .obj _, .null => .isFalse (fun h => nomatch h)
  | .obj _, .bool _ => .isFalse (fun h => nomatch h)
  | .obj _, .int _ => .isFalse (fun h => nomatch h)
  | .obj _, .float _ => .isFalse (fun h => nomatch h)
  | .obj _, .str _ => .isFalse (fun h => nomatch h)
  | .obj _, .arr _ => .isFalse (fun h => nomatch h)

def Json.decEqL : (xs ys : List Json) → Decidable (xs = ys)
  | [], [] => .isTrue rfl
  | [], _ :: _ => .isFalse (fun h => nomatch h)
  | _ :: _, [] => .isFalse (fun h => nomatch h)
  | x :: xs, y :: ys =>
    match Json.decEq x y, Json.decEqL xs ys with
    | .isTrue h1, .isTrue h2 => .isTrue (by rw [h1, h2])
    | .isFalse h1, _ => .isFalse (fun h => by injection h with ha hb; exact h1 ha)
    | _, .isFalse h2 => .isFalse (fun h => by injection h with ha hb; exact h2 hb)

def Json.decEqF : (xs ys : List (String × Json)) → Decidable (xs = ys)
  | [], [] => .isTrue rfl
  | [], _ :: _ => .isFalse (fun h => nomatch h)
  | _ :: _, [] => .isFalse (fun h => nomatch h)
  | (k, v) :: xs, (k2, v2) :: ys =>
    match String.decEq k k2, Json.decEq v v2, Json.decEqF xs ys with
    | .isTrue hk, .isTrue hv, .isTrue ht => .isTrue (by rw [hk, hv, ht])
    | .isFalse hk, _, _ =>
      .isFalse (fun h => by injection h with h1 h2; exact hk (congrArg Prod.fst h1))
    | _, .isFalse hv, _ =>
      .isFalse (fun h => by injection h with h1 h2; exact hv (congrArg Prod.snd h1))
    | _, _, .isFalse ht => .isFalse (fun h => by injection h with h1 h2; exact ht h2)

end

instance : DecidableEq Json := Json.decEq

/-- The Python exceptions the modelled code can raise or catch. -/
inductive PyErr where
  | valueError (msg : String)
  | typeError (msg : String)
  | attributeError
  | fileNotFound
deriving DecidableEq

/-- A Python dict whose keys are strings, as an insertion-ordered list. -/
def PyDict : Type := List (String × Json)

instance : DecidableEq PyDict := by
  unfold PyDict
  infer_instance

/-- Python `d[k]` / `k in d` lookup: first binding wins. -/
def dictLookup (d : PyDict) (k : String) : Option Json :=
  (List.find? (fun kv => kv.1 == k) d).map Prod.snd

/-- `REQUIRED_FIELDS` from payload_validator.py, in its fixed enumeration order. -/
def REQUIRED_FIELDS : List String := ["id", "timestamp", "network", "op_type", "target", "amount"]

/-- Python `isinstance(x, (int, float))`: true for int, float, and also bool,
since Python `bool` is a subclass of `int`. -/
def isNumericJson : Json → Bool
  | .int _ => true
  | .float _ => true
  | .bool _ => true
  | _ => false

/-- The numeric value a Python comparison such as `payload["amount"] < 0` sees
(`True` compares as 1, `False` as 0). Only meaningful on numeric values. -/
def numValue : Json → Rat
  | .int n => (n : Rat)
  | .float q => q
  | .bool b => if b then 1 else 0
  | _ => 0

/-- `validate_payload` from payload_validator.py: presence check over all
required fields first (raising ValueError listing every missing key), then the
`isinstance` type check on `amount`, then the negativity range check.
When the missing list is empty, `amount` is necessarily present, so the
`.getD .null` default is never taken. -/
def validate_payload (payload : PyDict) : Except PyErr Unit :=
  let missing := REQUIRED_FIELDS.filter (fun f => (dictLookup payload f).isNone)
  if missing = [] then
    let amount := (dictLookup payload "amount").getD .null
    if isNumericJson amount = false then
      .error (.typeError "Payload amount must be numeric.")
    else if numValue amount < 0 then
      .error (.valueError "Payload amount cannot be negative.")
    else .ok ()
  else
    .error (.valueError ("Missing payload keys: " ++ String.intercalate ", " missing))

/-- The observable content of one file of a modelled directory: text that
parses as a JSON value, text that fails to parse, or a file that was listed
but is gone by the time it is read (`FileNotFoundError`). -/
inductive FileContent where
  | json (val : Json)
  | garbage
  | missing
deriving DecidableEq

/-- One directory of the local filesystem (the records dir or the plans dir). -/
structure DirState where
  dirExists : Bool
  files : List (String × FileContent)
deriving DecidableEq

/-- `read_text` on a path inside the directory: a name with no entry raises
`FileNotFoundError`, modelled by `FileContent.missing`. -/
def contentAt (files : List (String × FileContent)) (name : String) : FileContent :=
  ((List.find? (fun kv => kv.1 == name) files).map Prod.snd).getD .missing

/-- `Path.write_text`: create the file or overwrite an existing one. -/
def writeFile (files : List (String × FileContent)) (name : String) (c : FileContent) :
    List (String × FileContent) :=
  (files.filter (fun kv => kv.1 != name)) ++ [(name, c)]

/-- Whether a filename matches the glob pattern used by `list_records`,
i.e. ends in ".json" (pathlib glob translates `*` to an arbitrary,
possibly empty, run of characters). -/
def matchesGlobJson (n : String) : Bool := List.isSuffixOf ".json".data n.data

/-- Insertion step of the model of Python `sorted` on filenames. -/
def insertSorted (x : String) : List String → List String
  | [] => [x]
  | y :: ys => if x ≤ y then x :: y :: ys else y :: insertSorted x ys

/-- Python `sorted()` on filenames (lexicographic string order). -/
def sortNames (xs : List String) : List String := xs.foldr insertSorted []

/-- The names produced by `record_dir.glob("*.json")`, before sorting. -/
def globJson (files : List (String × FileContent)) : List String :=
  (files.map Prod.fst).filter matchesGlobJson

/-- `ensure_record_dir` / `mkdir(exist_ok=True)`: idempotent directory creation. -/
def ensure_record_dir (fs : DirState) : DirState := { fs with dirExists := true }

/-- `list_records` from auroralogger.py: ensure the directory exists, then the
`*.json` names sorted by name. -/
def list_records (fs : DirState) : List String × DirState :=
  (sortNames (globJson fs.files), ensure_record_dir fs)

/-- Python `v.get(key, dflt)`: `AttributeError` when the receiver is not a dict. -/
def pyGet (v : Json) (key : String) (dflt : Json) : Except PyErr Json :=
  match v with
  | .obj fields => .ok (((List.find? (fun kv => kv.1 == key) fields).map Prod.snd).getD dflt)
  | _ => .error .attributeError

/-- Value of a digit run, most significant first. -/
def digitsToNat (ds : List Char) : Nat := ds.foldl (fun acc c => acc * 10 + (c.toNat - 48)) 0

/-- All characters are decimal digits. -/
def allDigits (ds : List Char) : Bool := ds.all (fun c => c.isDigit)

/-- Python `float(s)` on a string, restricted to plain decimal literals
`[+-]?digits[.digits]`; exotic literals (exponents, inf/nan, underscores,
surrounding whitespace) are outside the model — no claim exercises them. -/
def parseFloatLit (s : String) : Option Rat :=
  let cs := s.data
  let body := match cs with
    | c :: tl => if c = '-' ∨ c = '+' then tl else cs
    | [] => cs
  let sign : Rat := match cs with
    | c :: _ => if c = '-' then -1 else 1
    | [] => 1
  let ip := body.takeWhile (fun c => c != '.')
  let rest := body.drop ip.length
  match rest with
  | [] =>
    if !ip.isEmpty && allDigits ip then some (sign * (digitsToNat ip : Rat)) else none
  | _ :: fp =>
    if (!ip.isEmpty || !fp.isEmpty) && allDigits ip && allDigits fp then
      some (sign * ((digitsToNat ip : Rat) + (digitsToNat fp : Rat) / ((10 : Rat) ^ fp.length)))
    else none

/-- Python `float(x)` as applied to the `amount` value in summarize_records. -/
def pyFloat : Json → Except PyErr Rat
  | .int n => .ok (n : Rat)
  | .float q => .ok q
  | .bool b => .ok (if b then 1 else 0)
  | .str s =>
    match parseFloatLit s with
    | some q => .ok q
    | none => .error (.valueError "could not convert string to float")
  | .null => .error (.typeError "float() argument")
  | .arr _ => .error (.typeError "float() argument")
  | .obj _ => .error (.typeError "float() argument")

/-- Python hashability of the value inserted as an `op_counts` key. -/
def hashable : Json → Bool
  | .arr _ => false
  | .obj _ => false
  | _ => true

/-- The body of the `try` block of summarize_records for one record file:
read and parse the file, take `payload` (default empty dict), `op_type`
(default "unknown"), `amount` (default 0), convert the amount with `float`,
and require the op key to be hashable for the dict insertion. Cross-type
Python key equality (e.g. `1 == 1.0` as dict keys) is not modelled; every
claim below only exercises string keys. -/
def tryOne (c : FileContent) : Except PyErr (Json × Rat) := do
  let data ← match c with
    | .json v => Except.ok v
    | .garbage => Except.error (PyErr.valueError "json.loads")
    | .missing => Except.error PyErr.fileNotFound
  let payload ← pyGet data "payload" (.obj [])
  let op ← pyGet payload "op_type" (.str "unknown")
  let amountv ← pyGet payload "amount" (.int 0)
  let amt ← pyFloat amountv
  if hashable op then Except.ok (op, amt) else Except.error (.typeError "unhashable type")

/-- The `except (ValueError, FileNotFoundError)` clause of summarize_records:
these two exception kinds are swallowed, everything else propagates. -/
def isCaught : PyErr → Bool
  | .valueError _ => true
  | .fileNotFound => true
  | _ => false

/-- `op_counts[op] = op_counts.get(op, 0) + 1` on an insertion-ordered dict. -/
def bumpOp : List (Json × Nat) → Json → List (Json × Nat)
  | [], op => [(op, 1)]
  | kv :: rest, op => if kv.1 = op then (kv.1, kv.2 + 1) :: rest else kv :: bumpOp rest op

/-- `op_counts.get(op, 0)` on the resulting dict. -/
def countOf : List (Json × Nat) → Json → Nat
  | [], _ => 0
  | kv :: rest, op => if kv.1 = op then kv.2 else countOf rest op

/-- One loop iteration of summarize_records: on success accumulate the amount
and bump the op counter; caught exceptions skip the file; others propagate. -/
def recordStep (acc : Rat × List (Json × Nat)) (c : FileContent) :
    Except PyErr (Rat × List (Json × Nat)) :=
  match tryOne c with
  | .ok (op, amt) => .ok (acc.1 + amt, bumpOp acc.2 op)
  | .error e => if isCaught e then .ok acc else .error e

/-- The dictionary summarize_records returns. -/
structure Summary where
  count : Nat
  total_amount : Rat
  ops : List (Json × Nat)
deriving DecidableEq

/-- The summary (or propagated exception) `summarize_records` computes: list
the record files, loop the try/except body over them reading from the same
directory, and report `count = len(records)` together with the accumulated
total and per-op counts. -/
def summarize_result (fs : DirState) : Except PyErr Summary :=
  let names := (list_records fs).1
  match (names.map (contentAt fs.files)).foldlM recordStep ((0 : Rat), ([] : List (Json × Nat))) with
  | .ok acc => .ok ⟨names.length, acc.1, acc.2⟩
  | .error e => .error e

/-- `summarize_records` from auroralogger.py: the computed summary, together
with the directory state after the `list_records` side effect. -/
def summarize_records (fs : DirState) : Except PyErr Summary × DirState :=
  (summarize_result fs, (list_records fs).2)

/-- Python `str()` as used by the record-filename f-string. Fully modelled for
the shapes an id realistically takes (str, int, bool, None); floats and
containers get a schematic rendering on which no claim depends. -/
def pyStrOf : Json → String
  | .str s => s
  | .int n => toString n
  | .bool b => if b then "True" else "False"
  | .null => "None"
  | .float q => toString q
  | .arr _ => "[list]"
  | .obj _ => "[dict]"

/-- `f"{payload['id']}.json"`, the record filename derived from the id. -/
def recordFileName (payload : PyDict) : String :=
  pyStrOf ((dictLookup payload "id").getD .null) ++ ".json"

/-- The JSON value of an optional plan annotation. -/
def jsonOfPlan : Option String → Json
  | none => .null
  | some s => .str s

/-- The stored-record wrapper `{payload, plan, capture_time}` that dump_record
serializes. json.dumps followed by json.loads is the identity on JSON trees,
so the file is modelled as holding this value. -/
def dumpWrapper (payload : PyDict) (plan : Option String) (captureTime : String) : Json :=
  .obj [("payload", .obj payload), ("plan", jsonOfPlan plan), ("capture_time", .str captureTime)]

/-- `dump_record` from auroralogger.py: validate first (a failure propagates
with the directory untouched), then ensure the directory exists and write the
wrapper to `<id>.json`. The wall-clock capture time is passed in. -/
def dump_record (payload : PyDict) (plan : Option String) (captureTime : String) (fs : DirState) :
    Except PyErr String × DirState :=
  match validate_payload payload with
  | .error e => (.error e, fs)
  | .ok () =>
    let fs1 := ensure_record_dir fs
    let name := recordFileName payload
    (.ok name,
     { fs1 with files := writeFile fs1.files name (.json (dumpWrapper payload plan captureTime)) })

/-- Sequential persistence of several payloads (each with its plan annotation
and capture time), stopping at the first propagated failure. -/
def persistAll : List (PyDict × Option String × String) → DirState → Except PyErr DirState
  | [], fs => .ok fs
  | item :: rest, fs =>
    match dump_record item.1 item.2.1 item.2.2 fs with
    | (.ok _, fs2) => persistAll rest fs2
    | (.error e, _) => .error e

/-- The amount a payload carries (the validator guarantees presence). -/
def amountOf (p : PyDict) : Rat := numValue ((dictLookup p "amount").getD (.int 0))

/-- The op key summarize_records derives for a payload. -/
def opOf (p : PyDict) : Json := (dictLookup p "op_type").getD (.str "unknown")

/-- Whether the payload's op_type is a string (decidable side condition). -/
def opIsStr (p : PyDict) : Bool :=
  match dictLookup p "op_type" with
  | some (.str _) => true
  | _ => false

/-- Key lookup in a parsed JSON object, for stating properties of stored files. -/
def jlookup (v : Json) (key : String) : Option Json :=
  match v with
  | .obj fields => (List.find? (fun kv => kv.1 == key) fields).map Prod.snd
  | _ => none

/-- `PlanBook.__init__`: `mkdir(exist_ok=True)` on the plans directory. -/
def planBookInit (fs : DirState) : DirState := { fs with dirExists := true }

/-- `PlanEntry.__dict__` as serialized by add_entry. -/
def planEntryJson (id note urgency : String) (tags : List String) (createdAt : String) : Json :=
  .obj [("id", .str id), ("note", .str note), ("urgency", .str urgency),
        ("tags", .arr (tags.map Json.str)), ("created_at", .str createdAt)]

/-- The wrapper `{entry, metadata, logged_at}` that add_entry serializes. -/
def planWrapper (id note urgency : String) (tags : List String)
    (createdAt loggedAt : String) : Json :=
  .obj [("entry", planEntryJson id note urgency tags createdAt),
        ("metadata", .obj [("urgency", .str urgency),
                           ("tags", .str (String.intercalate ", " tags))]),
        ("logged_at", .str loggedAt)]

/-- `add_entry` from planner.py: `tags or []`, build the entry and wrapper,
and write them to `<id>.json`. The sampled id and the two timestamps are
passed in (randomness and clock as inputs). -/
def add_entry (note urgency : String) (tags : Option (List String))
    (id createdAt loggedAt : String) (fs : DirState) : String × DirState :=
  let tagList := tags.getD []
  let name := id ++ ".json"
  (name,
   { fs with files := writeFile fs.files name (.json (planWrapper id note urgency tagList createdAt loggedAt)) })

/-- `NetworkProfile` from network_catalog.py. The rpc/explorer/description
values come from untyped JSON, so they stay JSON values. -/
structure NetworkProfile where
  name : String
  rpc : Json
  explorer : Json
  description : Json
deriving DecidableEq

/-- `_load_profiles` from network_catalog.py: `none` models an absent source
file (the `exists()` guard); a present file holds its observable content. -/
def load_profiles : Option FileContent → Except PyErr (List (String × NetworkProfile))
  | none => .ok []
  | some .missing => .error .fileNotFound
  | some .garbage => .error (.valueError "json.loads")
  | some (.json raw) => do
    let profs ← pyGet raw "rpc_profiles" (.obj [])
    match profs with
    | .obj entries =>
      entries.mapM (fun kv => do
        let rpc ← pyGet kv.2 "rpc" (.str "")
        let explorer ← pyGet kv.2 "explorer" (.str "")
        let description ← pyGet kv.2 "description" (.str "")
        Except.ok (kv.1, NetworkProfile.mk kv.1 rpc explorer description))
    | _ => .error .attributeError

/-- The `NetworkCatalog` object after construction. -/
structure NetworkCatalog where
  profiles : List (String × NetworkProfile)
deriving DecidableEq

/-- `NetworkCatalog.__init__`: load the profiles from the source. -/
def NetworkCatalog.init (source : Option FileContent) : Except PyErr NetworkCatalog :=
  (load_profiles source).map NetworkCatalog.mk

/-- `NetworkCatalog.profile`: the named profile if it exists. -/
def NetworkCatalog.profile (c : NetworkCatalog) (name : String) : Option NetworkProfile :=
  (List.find? (fun kv => kv.1 == name) c.profiles).map Prod.snd

/-- Insertion step of `sorted(..., key=lambda entry: entry.name)`. -/
def insertProfileSorted (p : NetworkProfile) : List NetworkProfile → List NetworkProfile
  | [] => [p]
  | q :: qs => if p.name ≤ q.name then p :: q :: qs else q :: insertProfileSorted p qs

/-- `NetworkCatalog.list_profiles`: the loaded profiles sorted by name. -/
def NetworkCatalog.list_profiles (c : NetworkCatalog) : List NetworkProfile :=
  (c.profiles.map Prod.snd).foldr insertProfileSorted []

/-- Default `network` field of the AuroraLedger dataclass. -/
def DEFAULT_NETWORK : String := "testnet"

/-- Default `rpc_endpoint` field of the AuroraLedger dataclass. -/
def DEFAULT_RPC : Json := .str "https://rpc.testnet.zetainfra.example"

/-- The configuration part of the AuroraLedger dataclass touched by
`__post_init__` (the rpc endpoint is untyped JSON when it comes from a
catalog profile). -/
structure AuroraLedger where
  network : String
  rpc_endpoint : Json
deriving DecidableEq

/-- Dataclass construction followed by `__post_init__`: when a catalog is
supplied (always truthy in Python) and it has a profile for the requested
network, override the endpoint and network name from that profile. -/
def AuroraLedger.create (network : String) (rpc_endpoint : Json)
    (catalog : Option NetworkCatalog) : AuroraLedger :=
  match catalog with
  | none => ⟨network, rpc_endpoint⟩
  | some c =>
    match c.profile network with
    | some entry => ⟨entry.name, entry.rpc⟩
    | none => ⟨network, rpc_endpoint⟩

/-- Classification of one record file by the summarize try-block: its
contribution when it is processed, `none` when it is skipped or raises. -/
def contribOf (c : FileContent) : Option (Json × Rat) :=
  match tryOne c with
  | .ok pr => some pr
  | .error _ => none

/-- The processed contributions of a content list, in loop order. -/
def goodsOf (l : List FileContent) : List (Json × Rat) := l.filterMap contribOf

/-- The file raises no uncaught exception inside the summarize loop. -/
def noHardErr (c : FileContent) : Bool :=
  match tryOne c with
  | .ok _ => true
  | .error e => isCaught e

/-- The directory entry dump_record creates for one persisted item. -/
def mkRecordFile (x : PyDict × Option String × String) : String × FileContent :=
  (recordFileName x.1, .json (dumpWrapper x.1 x.2.1 x.2.2))

/-- The sample payload of tests/test_payload_validator.py. -/
def samplePayload : PyDict :=
  [("id", .str "deadbeef"), ("timestamp", .str "2022-08-26T18:47:33Z"),
   ("network", .str "testnet"), ("op_type", .str "mint"),
   ("target", .str "0xabc"), ("amount", .int 10)]

/-- The sample payload with its amount replaced. -/
def sampleWithAmount (a : Json) : PyDict :=
  (samplePayload.filter (fun kv => kv.1 != "amount")) ++ [("amount", a)]

/-- A second valid payload with a distinct id, for multi-record scenarios. -/
def samplePayload2 : PyDict :=
  [("id", .str "cafe"), ("timestamp", .str "2022-08-26T18:47:34Z"),
   ("network", .str "testnet"), ("op_type", .str "swap"),
   ("target", .str "0xdef"), ("amount", .float (5 : Rat))]

instance : DecidableEq (Except PyErr Unit) := fun a b =>
  match a, b with
  | .ok x, .ok y =>
    if h : x = y then .isTrue (by rw [h]) else .isFalse (fun hh => by injection hh with h2; exact h h2)
  | .error x, .error y =>
    if h : x = y then .isTrue (by rw [h]) else .isFalse (fun hh => by injection hh with h2; exact h h2)
  | .ok _, .error _ => .isFalse (fun h => nomatch h)
  | .error _, .ok _ => .isFalse (fun h => nomatch h)

theorem perm_insertSorted (x : String) (l : List String) :
    List.Perm (insertSorted x l) (x :: l) := by
  induction l with
  | nil => exact List.Perm.refl _
  | cons y ys ih =>
    by_cases h : x ≤ y
    · simp only [insertSorted, if_pos h]
      exact List.Perm.refl _
    · simp only [insertSorted, if_neg h]
      exact (ih.cons y).trans (List.Perm.swap x y ys)

theorem perm_sortNames (l : List String) : List.Perm (sortNames l) l := by
  induction l with
  | nil => exact List.Perm.refl _
  | cons x xs ih =>
    have hstep : sortNames (x :: xs) = insertSorted x (sortNames xs) := rfl
    rw [hstep]
    exact (perm_insertSorted x (sortNames xs)).trans (ih.cons x)

theorem sorted_insertSorted (x : String) (l : List String) (h : l.Sorted (· ≤ ·)) :
    (insertSorted x l).Sorted (· ≤ ·) := by
  induction l with
  | nil => simp [insertSorted]
  | cons y ys ih =>
    rw [List.sorted_cons] at h
    by_cases hxy : x ≤ y
    · simp only [insertSorted, if_pos hxy]
      rw [List.sorted_cons]
      refine ⟨?_, List.sorted_cons.mpr h⟩
      intro b hb
      rcases List.mem_cons.mp hb with hb | hb
      · rw [hb]; exact hxy
      · exact le_trans hxy (h.1 b hb)
    · simp only [insertSorted, if_neg hxy]
      rw [List.sorted_cons]
      refine ⟨?_, ih h.2⟩
      intro b hb
      have hb2 : b ∈ x :: ys := (perm_insertSorted x ys).mem_iff.mp hb
      rcases List.mem_cons.mp hb2 with hb2 | hb2
      · rw [hb2]; exact le_of_not_le hxy
      · exact h.1 b hb2

theorem sorted_sortNames (l : List String) : (sortNames l).Sorted (· ≤ ·) := by
  induction l with
  | nil => simp [sortNames]
  | cons x xs ih => exact sorted_insertSorted x (sortNames xs) ih

theorem find?_filter_writeFile (files : List (String × FileContent)) (m name : String)
    (h : m ≠ name) :
    List.find? (fun kv => kv.1 == m) (files.filter (fun kv => kv.1 != name)) =
    List.find? (fun kv => kv.1 == m) files := by
  induction files with
  | nil => rfl
  | cons kv rest ih =>
    by_cases hk : kv.1 = name
    · have h2 : (kv.1 == m) = false := by
        apply beq_eq_false_iff_ne.mpr
        rw [hk]
        exact fun hh => h hh.symm
      calc List.find? (fun kv => kv.1 == m)
              (List.filter (fun kv => kv.1 != name) (kv :: rest))
          = List.find? (fun kv => kv.1 == m) (List.filter (fun kv => kv.1 != name) rest) := by
            rw [List.filter_cons, if_neg (by simp [hk])]
        _ = List.find? (fun kv => kv.1 == m) rest := ih
        _ = List.find? (fun kv => kv.1 == m) (kv :: rest) := by
            rw [List.find?_cons, h2]
    · have h3 : (kv.1 != name) = true := bne_iff_ne.mpr hk
      rw [List.filter_cons, if_pos h3, List.find?_cons, List.find?_cons]
      cases hm : (kv.1 == m) with
      | true => rfl
      | false => exact ih

theorem find?_writeFile_left_none (files : List (String × FileContent)) (name : String) :
    List.find? (fun kv => kv.1 == name) (files.filter (fun kv => kv.1 != name)) = none := by
  rw [List.find?_eq_none]
  intro kv hkv
  have := (List.mem_filter.mp hkv).2
  simp only [bne_iff_ne, ne_eq] at this
  simp [this]

theorem contentAt_writeFile_self (files : List (String × FileContent)) (name : String)
    (c : FileContent) : contentAt (writeFile files name c) name = c := by
  unfold contentAt writeFile
  rw [List.find?_append, find?_writeFile_left_none]
  simp [List.find?_cons]

theorem contentAt_writeFile_other (files : List (String × FileContent)) (name m : String)
    (c : FileContent) (h : m ≠ name) :
    contentAt (writeFile files name c) m = contentAt files m := by
  unfold contentAt writeFile
  rw [List.find?_append, find?_filter_writeFile files m name h]
  cases hf : List.find? (fun kv => kv.1 == m) files with
  | some kv => rfl
  | none =>
    have hn : (name == m) = false := by
      apply beq_eq_false_iff_ne.mpr
      exact fun hh => h hh.symm
    simp [List.find?_cons, hn]

/-- C8: list_records returns the record-file locations sorted lexicographically
by filename; on an empty records directory it returns the empty sequence (and,
being a total function of the modelled directory state, cannot raise), after
ensuring the directory exists. -/
theorem list_records_spec (fs : DirState) :
    (list_records fs).1.Sorted (· ≤ ·) ∧
    List.Perm (list_records fs).1 (globJson fs.files) ∧
    ((list_records fs).2).dirExists = true ∧
    (fs.files = [] → (list_records fs).1 = []) := by
  refine ⟨sorted_sortNames _, perm_sortNames _, rfl, ?_⟩
  intro h
  simp [list_records, globJson, h, sortNames]

theorem list_records_spec_witness :
    (list_records ⟨false, []⟩).1 = [] :=
  (list_records_spec ⟨false, []⟩).2.2.2 rfl

/-- C9: add_entry on a constructed PlanBook leaves the plans directory
existing, writes exactly one file (named from the generated entry id; every
other name is untouched), and the stored wrapper's entry carries exactly the
given urgency and the given ordered tag sequence. -/
theorem add_entry_spec (note urgency id createdAt loggedAt : String)
    (tags : Option (List String)) (fs : DirState) :
    ((add_entry note urgency tags id createdAt loggedAt (planBookInit fs)).2).dirExists = true ∧
    (add_entry note urgency tags id createdAt loggedAt (planBookInit fs)).1 = id ++ ".json" ∧
    contentAt ((add_entry note urgency tags id createdAt loggedAt (planBookInit fs)).2).files
        (id ++ ".json") =
      .json (planWrapper id note urgency (tags.getD []) createdAt loggedAt) ∧
    (∀ m, m ≠ id ++ ".json" →
      contentAt ((add_entry note urgency tags id createdAt loggedAt (planBookInit fs)).2).files m =
        contentAt fs.files m) ∧
    jlookup (planWrapper id note urgency (tags.getD []) createdAt loggedAt) "entry" =
      some (planEntryJson id note urgency (tags.getD []) createdAt) ∧
    jlookup (planEntryJson id note urgency (tags.getD []) createdAt) "urgency" =
      some (.str urgency) ∧
    jlookup (planEntryJson id note urgency (tags.getD []) createdAt) "tags" =
      some (.arr ((tags.getD []).map Json.str)) := by
  refine ⟨rfl, rfl, contentAt_writeFile_self _ _ _, ?_, rfl, rfl, rfl⟩
  intro m hm
  exact contentAt_writeFile_other _ _ _ _ hm

theorem add_entry_spec_witness :
    contentAt ((add_entry "note" "high" (some ["infra", "urgent"]) "plan-12345" "c" "l"
        (planBookInit ⟨false, []⟩)).2).files ("plan-12345" ++ ".json") =
      .json (planWrapper "plan-12345" "note" "high" ["infra", "urgent"] "c" "l") :=
  (add_entry_spec "note" "high" "plan-12345" "c" "l" (some ["infra", "urgent"]) ⟨false, []⟩).2.2.1

/-- C5: constructing a builder with a catalog that resolves the requested
network name to a profile overrides the builder's network name and RPC
endpoint from that profile; when the catalog resolves no profile for the
name, both defaults are kept unchanged. -/
theorem ledger_catalog_override (network : String) (rpc : Json) (c : NetworkCatalog) :
    (∀ p, c.profile network = some p →
      AuroraLedger.create network rpc (some c) = ⟨p.name, p.rpc⟩) ∧
    (c.profile network = none →
      AuroraLedger.create network rpc (some c) = ⟨network, rpc⟩) := by
  have hred : AuroraLedger.create network rpc (some c) =
      match c.profile network with
      | some entry => ⟨entry.name, entry.rpc⟩
      | none => ⟨network, rpc⟩ := rfl
  constructor
  · intro p hp
    rw [hred, hp]
  · intro hp
    rw [hred, hp]

theorem ledger_catalog_override_witness :
    (AuroraLedger.create "testnet" DEFAULT_RPC
        (some ⟨[("testnet", ⟨"testnet", .str "https://x", .str "", .str ""⟩)]⟩)).rpc_endpoint =
      Json.str "https://x" ∧
    AuroraLedger.create "mainnet" DEFAULT_RPC
        (some ⟨[("testnet", ⟨"testnet", .str "https://x", .str "", .str ""⟩)]⟩) =
      ⟨"mainnet", DEFAULT_RPC⟩ := by
  constructor
  · have h := (ledger_catalog_override "testnet" DEFAULT_RPC
      (NetworkCatalog.mk [("testnet",
        NetworkProfile.mk "testnet" (.str "https://x") (.str "") (.str ""))])).1
      (NetworkProfile.mk "testnet" (.str "https://x") (.str "") (.str "")) rfl
    rw [h]
  · exact (ledger_catalog_override "mainnet" DEFAULT_RPC
      (NetworkCatalog.mk [("testnet",
        NetworkProfile.mk "testnet" (.str "https://x") (.str "") (.str ""))])).2 rfl

/-- C2: a payload missing required fields fails with the ShapeError-kind
ValueError whose message lists exactly the absent required fields, all at
once, in the fixed REQUIRED_FIELDS enumeration order (the missing list is a
sublist of REQUIRED_FIELDS); in particular a payload missing amount is
reported as missing rather than through the type or range check. -/
theorem validate_missing_fields (p : PyDict)
    (h : ∃ f ∈ REQUIRED_FIELDS, dictLookup p f = none) :
    ∃ L, validate_payload p =
        .error (.valueError ("Missing payload keys: " ++ String.intercalate ", " L)) ∧
      List.Sublist L REQUIRED_FIELDS ∧
      ∀ f, f ∈ L ↔ f ∈ REQUIRED_FIELDS ∧ dictLookup p f = none := by
  obtain ⟨f, hf, hnone⟩ := h
  have hmem : f ∈ REQUIRED_FIELDS.filter (fun g => (dictLookup p g).isNone) :=
    List.mem_filter.mpr ⟨hf, by simp [hnone]⟩
  have hne : REQUIRED_FIELDS.filter (fun g => (dictLookup p g).isNone) ≠ [] :=
    List.ne_nil_of_mem hmem
  refine ⟨REQUIRED_FIELDS.filter (fun g => (dictLookup p g).isNone), ?_,
    List.filter_sublist _, ?_⟩
  · simp only [validate_payload]
    rw [if_neg hne]
  · intro g
    rw [List.mem_filter]
    simp

theorem validate_missing_fields_witness :
    ∃ L, validate_payload [("id", Json.str "a")] =
        .error (.valueError ("Missing payload keys: " ++ String.intercalate ", " L)) ∧
      List.Sublist L REQUIRED_FIELDS ∧
      ∀ f, f ∈ L ↔ f ∈ REQUIRED_FIELDS ∧ dictLookup [("id", Json.str "a")] f = none :=
  validate_missing_fields [("id", Json.str "a")] ⟨"timestamp", by decide, rfl⟩

/-- C3: when validation fails, dump_record propagates that same failure and
leaves the records directory completely unchanged: no file is created or
modified (and the directory is not even created). -/
theorem dump_record_aborts_on_invalid (p : PyDict) (plan : Option String) (t : String)
    (fs : DirState) (e : PyErr) (h : validate_payload p = .error e) :
    dump_record p plan t fs = (.error e, fs) := by
  unfold dump_record
  rw [h]

theorem dump_record_aborts_on_invalid_witness :
    dump_record [] none "t" ⟨false, []⟩ =
      (.error (.valueError
        "Missing payload keys: id, timestamp, network, op_type, target, amount"),
       ⟨false, []⟩) :=
  dump_record_aborts_on_invalid [] none "t" ⟨false, []⟩
    (.valueError "Missing payload keys: id, timestamp, network, op_type, target, amount") rfl

/-- C4: with every required field present, a non-numeric amount fails with
the TypeError-kind error, a numeric strictly negative amount fails with the
range (ValueError-kind) error, and an amount equal to zero validates
successfully. -/
theorem validate_amount_checks (p : PyDict)
    (hall : ∀ f ∈ REQUIRED_FIELDS, (dictLookup p f).isSome = true) :
    (∀ a, dictLookup p "amount" = some a → isNumericJson a = false →
      validate_payload p = .error (.typeError "Payload amount must be numeric.")) ∧
    (∀ a, dictLookup p "amount" = some a → isNumericJson a = true → numValue a < 0 →
      validate_payload p = .error (.valueError "Payload amount cannot be negative.")) ∧
    (∀ a, dictLookup p "amount" = some a → isNumericJson a = true → numValue a = 0 →
      validate_payload p = .ok ()) := by
  have hmiss : REQUIRED_FIELDS.filter (fun g => (dictLookup p g).isNone) = [] := by
    rw [List.filter_eq_nil_iff]
    intro g hg
    have hs := hall g hg
    cases hdl : dictLookup p g with
    | none => rw [hdl] at hs; cases hs
    | some v => simp [hdl]
  refine ⟨?_, ?_, ?_⟩
  · intro a ha hnum
    simp only [validate_payload]
    rw [if_pos hmiss, ha]
    simp only [Option.getD_some]
    rw [if_pos hnum]
  · intro a ha hnum hlt
    simp only [validate_payload]
    rw [if_pos hmiss, ha]
    simp only [Option.getD_some]
    rw [if_neg (by simp [hnum]), if_pos hlt]
  · intro a ha hnum hz
    simp only [validate_payload]
    rw [if_pos hmiss, ha]
    simp only [Option.getD_some]
    rw [if_neg (by simp [hnum]), if_neg (by rw [hz]; exact lt_irrefl 0)]

theorem validate_amount_checks_witness :
    validate_payload (sampleWithAmount (.str "x")) =
      .error (.typeError "Payload amount must be numeric.") ∧
    validate_payload (sampleWithAmount (.int (-5))) =
      .error (.valueError "Payload amount cannot be negative.") ∧
    validate_payload (sampleWithAmount (.int 0)) = .ok () := by
  refine ⟨?_, ?_, ?_⟩
  · exact (validate_amount_checks _ (by decide)).1 _ rfl rfl
  · exact (validate_amount_checks _ (by decide)).2.1 _ rfl rfl (by decide)
  · exact (validate_amount_checks _ (by decide)).2.2 _ rfl rfl (by decide)

/-- C6: persisting a valid payload and then reading the stored file back at
the returned location and parsing it yields a record whose payload
sub-object carries the original id and passes validation again. -/
theorem dump_record_roundtrip (p : PyDict) (plan : Option String) (t : String) (fs : DirState)
    (h : validate_payload p = .ok ()) :
    ∃ name fs2, dump_record p plan t fs = (.ok name, fs2) ∧
      ∃ w q, contentAt fs2.files name = .json w ∧
        jlookup w "payload" = some (.obj q) ∧
        dictLookup q "id" = dictLookup p "id" ∧
        validate_payload q = .ok () := by
  have hdump : dump_record p plan t fs =
      (.ok (recordFileName p),
       ⟨true, writeFile fs.files (recordFileName p) (.json (dumpWrapper p plan t))⟩) := by
    unfold dump_record
    rw [h]
    rfl
  exact ⟨recordFileName p, _, hdump, dumpWrapper p plan t, p,
    contentAt_writeFile_self _ _ _, rfl, rfl, h⟩

theorem dump_record_roundtrip_witness :
    ∃ name fs2, dump_record samplePayload none "t" ⟨false, []⟩ = (.ok name, fs2) ∧
      ∃ w q, contentAt fs2.files name = .json w ∧
        jlookup w "payload" = some (.obj q) ∧
        dictLookup q "id" = dictLookup samplePayload "id" ∧
        validate_payload q = .ok () :=
  dump_record_roundtrip samplePayload none "t" ⟨false, []⟩ rfl

theorem countOf_bumpOp (ops : List (Json × Nat)) (k' k : Json) :
    countOf (bumpOp ops k') k = countOf ops k + (if k' = k then 1 else 0) := by
  induction ops with
  | nil =>
    by_cases h : k' = k
    · simp [bumpOp, countOf, h]
    · simp [bumpOp, countOf, h]
  | cons kv rest ih =>
    by_cases h1 : kv.1 = k'
    · simp only [bumpOp, if_pos h1]
      by_cases h2 : kv.1 = k
      · have hkk : k' = k := h1.symm.trans h2
        simp [countOf, h2, hkk]
      · have hkk : ¬ k' = k := fun hh => h2 (h1.trans hh)
        simp [countOf, h2, hkk]
    · simp only [bumpOp, if_neg h1]
      by_cases h2 : kv.1 = k
      · have hkk : ¬ k' = k := fun hh => h1 (h2.trans hh.symm)
        simp [countOf, h2, hkk]
      · simp [countOf, h2, ih]

theorem countOf_foldl_bumpOp (l : List Json) (ops : List (Json × Nat)) (k : Json) :
    countOf (List.foldl bumpOp ops l) k = countOf ops k + l.count k := by
  induction l generalizing ops with
  | nil => simp
  | cons x xs ih =>
    rw [List.foldl_cons, ih, countOf_bumpOp, List.count_cons]
    by_cases h : x = k
    · have hb : (x == k) = true := beq_iff_eq.mpr h
      rw [hb, if_pos h]
      norm_num
      omega
    · have hb : (x == k) = false := beq_eq_false_iff_ne.mpr h
      rw [hb, if_neg h]
      norm_num

theorem foldlM_recordStep_char (l : List FileContent)
    (hsoft : ∀ c ∈ l, noHardErr c = true) (acc : Rat × List (Json × Nat)) :
    l.foldlM recordStep acc =
      .ok (acc.1 + ((goodsOf l).map Prod.snd).sum,
           List.foldl bumpOp acc.2 ((goodsOf l).map Prod.fst)) := by
  induction l generalizing acc with
  | nil =>
    show Except.ok acc = _
    simp [goodsOf]
  | cons c rest ih =>
    have hc := hsoft c (List.mem_cons_self c rest)
    have hrest : ∀ x ∈ rest, noHardErr x = true :=
      fun x hx => hsoft x (List.mem_cons_of_mem c hx)
    rw [List.foldlM_cons]
    cases hto : tryOne c with
    | ok pr =>
      have hstep : recordStep acc c = .ok (acc.1 + pr.2, bumpOp acc.2 pr.1) := by
        unfold recordStep
        rw [hto]
      rw [hstep]
      show rest.foldlM recordStep (acc.1 + pr.2, bumpOp acc.2 pr.1) = _
      rw [ih hrest]
      have hgoods : goodsOf (c :: rest) = pr :: goodsOf rest := by
        simp [goodsOf, List.filterMap_cons, contribOf, hto]
      rw [hgoods]
      simp [add_assoc]
    | error e =>
      have he : isCaught e = true := by
        unfold noHardErr at hc
        rw [hto] at hc
        exact hc
      have hstep : recordStep acc c = .ok acc := by
        unfold recordStep
        rw [hto]
        show (if isCaught e = true then Except.ok acc else Except.error e) = Except.ok acc
        rw [if_pos he]
      rw [hstep]
      show rest.foldlM recordStep acc = _
      rw [ih hrest]
      have hgoods : goodsOf (c :: rest) = goodsOf rest := by
        simp [goodsOf, List.filterMap_cons, contribOf, hto]
      rw [hgoods]

theorem foldlM_recordStep_middle_skip (A B : List FileContent) (acc : Rat × List (Json × Nat)) :
    (A ++ FileContent.garbage :: B).foldlM recordStep acc = (A ++ B).foldlM recordStep acc := by
  induction A generalizing acc with
  | nil =>
    rw [List.nil_append, List.nil_append, List.foldlM_cons]
    rfl
  | cons c A ih =>
    rw [List.cons_append, List.cons_append, List.foldlM_cons, List.foldlM_cons]
    cases hstep : recordStep acc c with
    | ok acc2 =>
      show (A ++ FileContent.garbage :: B).foldlM recordStep acc2 =
        (A ++ B).foldlM recordStep acc2
      exact ih acc2
    | error e => rfl

theorem contentAt_cons_ne (kv : String × FileContent) (rest : List (String × FileContent))
    (m : String) (h : m ≠ kv.1) : contentAt (kv :: rest) m = contentAt rest m := by
  unfold contentAt
  rw [List.find?_cons]
  have hb : (kv.1 == m) = false := beq_eq_false_iff_ne.mpr (fun hh => h hh.symm)
  rw [hb]

theorem map_contentAt_of_nodup (files : List (String × FileContent))
    (h : (files.map Prod.fst).Nodup) :
    (files.map Prod.fst).map (contentAt files) = files.map Prod.snd := by
  induction files with
  | nil => rfl
  | cons kv rest ih =>
    rw [List.map_cons] at h
    have h1 : kv.1 ∉ rest.map Prod.fst := (List.nodup_cons.mp h).1
    have h2 := (List.nodup_cons.mp h).2
    rw [List.map_cons, List.map_cons, List.map_cons]
    congr 1
    · unfold contentAt
      rw [List.find?_cons]
      have hb : (kv.1 == kv.1) = true := beq_self_eq_true _
      rw [hb]
      rfl
    · rw [← ih h2]
      apply List.map_congr_left
      intro m hm
      exact contentAt_cons_ne kv rest m (fun hh => h1 (hh ▸ hm))

theorem matchesGlobJson_append (s : String) : matchesGlobJson (s ++ ".json") = true := by
  unfold matchesGlobJson
  have hdata : (s ++ ".json").data = s.data ++ ".json".data := rfl
  rw [hdata]
  exact List.isSuffixOf_iff_suffix.mpr (List.suffix_append s.data ".json".data)

theorem globJson_all_match (files : List (String × FileContent))
    (h : ∀ n ∈ files.map Prod.fst, matchesGlobJson n = true) :
    globJson files = files.map Prod.fst := by
  unfold globJson
  exact List.filter_eq_self.mpr h

theorem writeFile_fresh (files : List (String × FileContent)) (name : String) (c : FileContent)
    (h : name ∉ files.map Prod.fst) : writeFile files name c = files ++ [(name, c)] := by
  unfold writeFile
  congr 1
  apply List.filter_eq_self.mpr
  intro kv hkv
  apply bne_iff_ne.mpr
  exact fun hh => h (hh ▸ List.mem_map_of_mem Prod.fst hkv)

theorem sortNames_append_singleton (names : List String) (n : String) :
    ∃ l1 l2, sortNames (names ++ [n]) = l1 ++ n :: l2 ∧ sortNames names = l1 ++ l2 := by
  have hp1 : List.Perm (sortNames (names ++ [n])) (n :: names) := by
    refine (perm_sortNames _).trans ?_
    have hmid : List.Perm (names ++ [n]) (n :: (names ++ [])) := List.perm_middle
    rw [List.append_nil] at hmid
    exact hmid
  have hn : n ∈ sortNames (names ++ [n]) := hp1.mem_iff.mpr (List.mem_cons_self n names)
  obtain ⟨l1, l2, hsplit⟩ := List.append_of_mem hn
  refine ⟨l1, l2, hsplit, ?_⟩
  have hp2 : List.Perm (l1 ++ n :: l2) (n :: (l1 ++ l2)) := List.perm_middle
  have hp3 : List.Perm (n :: (l1 ++ l2)) (n :: names) := hp2.symm.trans (hsplit ▸ hp1)
  have hp4 : List.Perm (l1 ++ l2) names := hp3.cons_inv
  have hs1 : (l1 ++ l2).Sorted (· ≤ ·) := by
    have hsorted : (l1 ++ n :: l2).Sorted (· ≤ ·) := by
      rw [← hsplit]
      exact sorted_sortNames _
    exact hsorted.sublist (List.Sublist.append_left (List.sublist_cons_self n l2) l1)
  exact (List.eq_of_perm_of_sorted (hp4.trans (perm_sortNames names).symm) hs1
    (sorted_sortNames names)).symm

theorem persistAll_writes (items : List (PyDict × Option String × String)) :
    ∀ fs : DirState,
    (∀ x ∈ items, validate_payload x.1 = .ok ()) →
    ((items.map (fun x => recordFileName x.1)).Nodup) →
    (∀ x ∈ items, recordFileName x.1 ∉ fs.files.map Prod.fst) →
    ∃ d, persistAll items fs = .ok ⟨d, fs.files ++ items.map mkRecordFile⟩ := by
  induction items with
  | nil =>
    intro fs _ _ _
    exact ⟨fs.dirExists, by simp [persistAll]⟩
  | cons x rest ih =>
    intro fs hvalid hnodup hfresh
    have hx := hvalid x (List.mem_cons_self x rest)
    have hfreshx := hfresh x (List.mem_cons_self x rest)
    have hdump : dump_record x.1 x.2.1 x.2.2 fs =
        (.ok (recordFileName x.1), ⟨true, fs.files ++ [mkRecordFile x]⟩) := by
      have h1 : dump_record x.1 x.2.1 x.2.2 fs =
          (.ok (recordFileName x.1),
           ⟨true, writeFile fs.files (recordFileName x.1)
             (.json (dumpWrapper x.1 x.2.1 x.2.2))⟩) := by
        unfold dump_record
        rw [hx]
        rfl
      rw [h1, writeFile_fresh fs.files _ _ hfreshx]
      rfl
    have hstep : persistAll (x :: rest) fs =
        persistAll rest ⟨true, fs.files ++ [mkRecordFile x]⟩ := by
      show (match dump_record x.1 x.2.1 x.2.2 fs with
            | (Except.ok _, fs2) => persistAll rest fs2
            | (Except.error e, _) => Except.error e) =
        persistAll rest ⟨true, fs.files ++ [mkRecordFile x]⟩
      rw [hdump]
    rw [List.map_cons] at hnodup
    have hnodup2 := List.nodup_cons.mp hnodup
    have hrest_valid : ∀ y ∈ rest, validate_payload y.1 = .ok () :=
      fun y hy => hvalid y (List.mem_cons_of_mem x hy)
    have hrest_fresh : ∀ y ∈ rest,
        recordFileName y.1 ∉
          (DirState.mk true (fs.files ++ [mkRecordFile x])).files.map Prod.fst := by
      intro y hy
      rw [List.map_append]
      intro hmem
      rcases List.mem_append.mp hmem with hm | hm
      · exact hfresh y (List.mem_cons_of_mem x hy) hm
      · have heq : recordFileName y.1 = recordFileName x.1 := by
          simpa [mkRecordFile] using hm
        exact hnodup2.1 (heq ▸ List.mem_map_of_mem (fun z => recordFileName z.1) hy)
    obtain ⟨d, hd⟩ := ih ⟨true, fs.files ++ [mkRecordFile x]⟩ hrest_valid hnodup2.2 hrest_fresh
    refine ⟨d, ?_⟩
    rw [hstep, hd]
    simp [List.append_assoc]

theorem validate_ok_amount (p : PyDict) (h : validate_payload p = .ok ()) :
    ∃ a, dictLookup p "amount" = some a ∧ isNumericJson a = true := by
  by_cases hmiss : REQUIRED_FIELDS.filter (fun g => (dictLookup p g).isNone) = []
  · have hsome : (dictLookup p "amount").isNone = false := by
      by_contra hcon
      have hmem : "amount" ∈ REQUIRED_FIELDS.filter (fun g => (dictLookup p g).isNone) := by
        apply List.mem_filter.mpr
        refine ⟨by decide, ?_⟩
        cases hh : (dictLookup p "amount").isNone
        · exact absurd hh hcon
        · rfl
      rw [hmiss] at hmem
      cases hmem
    cases ha : dictLookup p "amount" with
    | none => rw [ha] at hsome; cases hsome
    | some a =>
      refine ⟨a, rfl, ?_⟩
      cases hnum : isNumericJson a
      · exfalso
        have hbad : validate_payload p = .error (.typeError "Payload amount must be numeric.") := by
          simp only [validate_payload]
          rw [if_pos hmiss, ha]
          simp only [Option.getD_some]
          rw [if_pos hnum]
        rw [hbad] at h
        cases h
      · rfl
  · exfalso
    have hbad : validate_payload p =
        .error (.valueError ("Missing payload keys: " ++ String.intercalate ", "
          (REQUIRED_FIELDS.filter (fun g => (dictLookup p g).isNone)))) := by
      simp only [validate_payload]
      rw [if_neg hmiss]
    rw [hbad] at h
    cases h

theorem tryOne_dumpWrapper (p : PyDict) (plan : Option String) (t : String)
    (hok : validate_payload p = .ok ()) (hop : opIsStr p = true) :
    tryOne (.json (dumpWrapper p plan t)) = .ok (opOf p, amountOf p) := by
  obtain ⟨a, ha, hnum⟩ := validate_ok_amount p hok
  have hs2 : ∃ s, dictLookup p "op_type" = some (Json.str s) := by
    unfold opIsStr at hop
    split at hop
    · rename_i s heq
      exact ⟨s, heq⟩
    · cases hop
  obtain ⟨s, hs⟩ := hs2
  have hred : tryOne (.json (dumpWrapper p plan t)) =
      (pyFloat ((dictLookup p "amount").getD (.int 0))).bind (fun amt =>
        if hashable ((dictLookup p "op_type").getD (.str "unknown")) then
          Except.ok (((dictLookup p "op_type").getD (.str "unknown")), amt)
        else Except.error (.typeError "unhashable type")) := rfl
  rw [hred, hs, ha]
  unfold opOf amountOf
  rw [hs, ha]
  simp only [Option.getD_some]
  cases a with
  | int n => rfl
  | float q => rfl
  | bool b => rfl
  | null => simp [isNumericJson] at hnum
  | str v => simp [isNumericJson] at hnum
  | arr v => simp [isNumericJson] at hnum
  | obj v => simp [isNumericJson] at hnum

theorem summarize_records_char (fs : DirState)
    (hsoft : ∀ c ∈ (sortNames (globJson fs.files)).map (contentAt fs.files),
      noHardErr c = true) :
    (summarize_records fs).1 = .ok
      ⟨(sortNames (globJson fs.files)).length,
       ((goodsOf ((sortNames (globJson fs.files)).map (contentAt fs.files))).map Prod.snd).sum,
       List.foldl bumpOp []
         ((goodsOf ((sortNames (globJson fs.files)).map (contentAt fs.files))).map Prod.fst)⟩ := by
  show summarize_result fs = _
  simp only [summarize_result, list_records]
  rw [foldlM_recordStep_char _ hsoft]
  simp

theorem filterMap_all_some {α β : Type} (l : List α) (f : α → Option β) (g : α → β)
    (h : ∀ x ∈ l, f x = some (g x)) : l.filterMap f = l.map g := by
  induction l with
  | nil => rfl
  | cons x xs ih =>
    rw [List.filterMap_cons, h x (List.mem_cons_self x xs), List.map_cons,
      ih (fun y hy => h y (List.mem_cons_of_mem x hy))]

theorem summarize_over_dumped (items : List (PyDict × Option String × String)) (d : Bool)
    (hvalid : ∀ x ∈ items, validate_payload x.1 = .ok ())
    (hop : ∀ x ∈ items, opIsStr x.1 = true)
    (hnodup : (items.map (fun x => recordFileName x.1)).Nodup) :
    ∃ ops, (summarize_records ⟨d, items.map mkRecordFile⟩).1 =
        .ok ⟨items.length, (items.map (fun x => amountOf x.1)).sum, ops⟩ ∧
      ∀ j, countOf ops j = (items.map (fun x => opOf x.1)).count j := by
  have hnames : (items.map mkRecordFile).map Prod.fst =
      items.map (fun x => recordFileName x.1) := by
    rw [List.map_map]
    rfl
  have hsnd : (items.map mkRecordFile).map Prod.snd =
      items.map (fun x => FileContent.json (dumpWrapper x.1 x.2.1 x.2.2)) := by
    rw [List.map_map]
    rfl
  have hglobm : globJson (items.map mkRecordFile) = (items.map mkRecordFile).map Prod.fst := by
    apply globJson_all_match
    intro n hn
    rw [hnames] at hn
    obtain ⟨x, hx, hxe⟩ := List.mem_map.mp hn
    rw [← hxe]
    show matchesGlobJson (recordFileName x.1) = true
    unfold recordFileName
    exact matchesGlobJson_append _
  have hnodup2 : ((items.map mkRecordFile).map Prod.fst).Nodup := by
    rw [hnames]
    exact hnodup
  have hcontents : ((items.map mkRecordFile).map Prod.fst).map
        (contentAt (items.map mkRecordFile)) = (items.map mkRecordFile).map Prod.snd :=
    map_contentAt_of_nodup (items.map mkRecordFile) hnodup2
  have hperm : List.Perm (sortNames (globJson (items.map mkRecordFile)))
      ((items.map mkRecordFile).map Prod.fst) := by
    rw [hglobm]
    exact perm_sortNames _
  have hcperm : List.Perm
      ((sortNames (globJson (items.map mkRecordFile))).map (contentAt (items.map mkRecordFile)))
      ((items.map mkRecordFile).map Prod.snd) := by
    rw [← hcontents]
    exact hperm.map _
  have htry : ∀ x ∈ items, tryOne (FileContent.json (dumpWrapper x.1 x.2.1 x.2.2)) =
      .ok (opOf x.1, amountOf x.1) :=
    fun x hx => tryOne_dumpWrapper x.1 x.2.1 x.2.2 (hvalid x hx) (hop x hx)
  have hgoods_snd : goodsOf ((items.map mkRecordFile).map Prod.snd) =
      items.map (fun x => (opOf x.1, amountOf x.1)) := by
    rw [hsnd]
    unfold goodsOf
    rw [List.filterMap_map]
    apply filterMap_all_some
    intro x hx
    show contribOf (FileContent.json (dumpWrapper x.1 x.2.1 x.2.2)) = _
    unfold contribOf
    rw [htry x hx]
  have hgoodsperm : List.Perm
      (goodsOf ((sortNames (globJson (items.map mkRecordFile))).map
        (contentAt (items.map mkRecordFile))))
      (items.map (fun x => (opOf x.1, amountOf x.1))) := by
    rw [← hgoods_snd]
    exact hcperm.filterMap contribOf
  have hgoodall : ∀ c ∈ (sortNames (globJson (items.map mkRecordFile))).map
      (contentAt (items.map mkRecordFile)), noHardErr c = true := by
    intro c hc
    have hc2 : c ∈ (items.map mkRecordFile).map Prod.snd := hcperm.mem_iff.mp hc
    rw [hsnd] at hc2
    obtain ⟨x, hx, hxe⟩ := List.mem_map.mp hc2
    rw [← hxe]
    unfold noHardErr
    rw [htry x hx]
  have hchar := summarize_records_char ⟨d, items.map mkRecordFile⟩ hgoodall
  have hlen : (sortNames (globJson (items.map mkRecordFile))).length = items.length := by
    rw [hperm.length_eq, List.length_map, List.length_map]
  have hsum : ((goodsOf ((sortNames (globJson (items.map mkRecordFile))).map
        (contentAt (items.map mkRecordFile)))).map Prod.snd).sum =
      (items.map (fun x => amountOf x.1)).sum := by
    rw [(hgoodsperm.map Prod.snd).sum_eq, List.map_map]
    rfl
  refine ⟨List.foldl bumpOp []
    ((goodsOf ((sortNames (globJson (items.map mkRecordFile))).map
      (contentAt (items.map mkRecordFile)))).map Prod.fst), ?_, ?_⟩
  · rw [hchar, hlen, hsum]
  · intro j
    rw [countOf_foldl_bumpOp]
    have hcnt := (hgoodsperm.map Prod.fst).count_eq j
    rw [hcnt, List.map_map]
    show 0 + _ = _
    rw [Nat.zero_add]
    rfl

/-- C7: persisting N valid payloads (with string op_type values and pairwise
distinct record filenames) into an empty records directory and then calling
summarize reports count = N, total_amount = the sum of the payload amounts,
and, for every op key, a per-op count equal to the number of those payloads
carrying that op_type. -/
theorem summarize_after_persistAll (items : List (PyDict × Option String × String))
    (hvalid : ∀ x ∈ items, validate_payload x.1 = .ok ())
    (hop : ∀ x ∈ items, opIsStr x.1 = true)
    (hnodup : (items.map (fun x => recordFileName x.1)).Nodup) :
    ∃ fs2, persistAll items ⟨false, []⟩ = .ok fs2 ∧
      ∃ ops, (summarize_records fs2).1 =
          .ok ⟨items.length, (items.map (fun x => amountOf x.1)).sum, ops⟩ ∧
        ∀ j, countOf ops j = (items.map (fun x => opOf x.1)).count j := by
  obtain ⟨d, hd⟩ := persistAll_writes items ⟨false, []⟩ hvalid hnodup
    (by intro x hx; simp)
  exact ⟨⟨d, items.map mkRecordFile⟩, hd,
    summarize_over_dumped items d hvalid hop hnodup⟩

theorem summarize_after_persistAll_witness :
    ∃ fs2, persistAll [(samplePayload, none, "t1"), (samplePayload2, some "p", "t2")]
        ⟨false, []⟩ = .ok fs2 ∧
      ∃ ops, (summarize_records fs2).1 =
          .ok ⟨([(samplePayload, (none : Option String), "t1"),
                 (samplePayload2, some "p", "t2")]).length,
               ([(samplePayload, (none : Option String), "t1"),
                 (samplePayload2, some "p", "t2")].map (fun x => amountOf x.1)).sum, ops⟩ ∧
        ∀ j, countOf ops j =
          ([(samplePayload, (none : Option String), "t1"),
            (samplePayload2, some "p", "t2")].map (fun x => opOf x.1)).count j :=
  summarize_after_persistAll
    [(samplePayload, none, "t1"), (samplePayload2, some "p", "t2")]
    (by decide) (by decide) (by decide)

/-- C1 counterexample: a records directory holding a single record file whose
text fails to parse as JSON. summarize_records reports count = 1 (with zero
total and no ops): the unparseable file is still counted in `count`, whereas
the claim's exclusion from all three aggregates would force count = 0. -/
theorem summarize_counts_unparseable :
    (summarize_records ⟨true, [("bad.json", FileContent.garbage)]⟩).1 =
      .ok ⟨1, 0, []⟩ ∧
    ∀ s, (summarize_records ⟨true, [("bad.json", FileContent.garbage)]⟩).1 = .ok s →
      s.count ≠ 0 := by
  have hval : (summarize_records ⟨true, [("bad.json", FileContent.garbage)]⟩).1 =
      .ok ⟨1, 0, []⟩ := rfl
  refine ⟨hval, ?_⟩
  intro s hs
  rw [hval] at hs
  injection hs with h2
  rw [← h2]
  decide

/-- C1 amended: summarize_records excludes a record file that fails to parse
from total_amount and from the per-op ops counts, but not from count: count
reports every listed record file, so adding an unparseable file to any
directory state increments count by one and leaves the other two aggregates
unchanged. -/
theorem summarize_garbage_only_counts (files : List (String × FileContent)) (d d2 : Bool)
    (n : String) (hmem : n ∉ files.map Prod.fst) (hglob : matchesGlobJson n = true) :
    ∀ s, (summarize_records ⟨d, files⟩).1 = .ok s →
      (summarize_records ⟨d2, files ++ [(n, FileContent.garbage)]⟩).1 =
        .ok ⟨s.count + 1, s.total_amount, s.ops⟩ := by
  have hset : globJson (files ++ [(n, FileContent.garbage)]) = globJson files ++ [n] := by
    unfold globJson
    rw [List.map_append, List.filter_append]
    congr 1
    simp [hglob]
  obtain ⟨l1, l2, hsplit, hsplit2⟩ := sortNames_append_singleton (globJson files) n
  have hpres : ∀ m ∈ globJson files,
      contentAt (files ++ [(n, FileContent.garbage)]) m = contentAt files m := by
    intro m hm
    have hm3 : m ∈ files.map Prod.fst := List.mem_of_mem_filter hm
    unfold contentAt
    rw [List.find?_append]
    cases hf : List.find? (fun kv => kv.1 == m) files with
    | some kv => rfl
    | none =>
      exfalso
      rw [List.find?_eq_none] at hf
      obtain ⟨kv, hkv, hkve⟩ := List.mem_map.mp hm3
      exact hf kv hkv (by rw [hkve]; exact beq_self_eq_true m)
  have hat_n : contentAt (files ++ [(n, FileContent.garbage)]) n = FileContent.garbage := by
    unfold contentAt
    rw [List.find?_append]
    have hnone : List.find? (fun kv => kv.1 == n) files = none := by
      rw [List.find?_eq_none]
      intro kv hkv hbeq
      exact hmem (beq_iff_eq.mp hbeq ▸ List.mem_map_of_mem Prod.fst hkv)
    rw [hnone]
    simp [List.find?_cons, beq_self_eq_true]
  have hl1 : l1.map (contentAt (files ++ [(n, FileContent.garbage)])) =
      l1.map (contentAt files) := by
    apply List.map_congr_left
    intro m hm
    apply hpres m
    have hx : m ∈ sortNames (globJson files) := by
      rw [hsplit2]
      exact List.mem_append_left l2 hm
    exact (perm_sortNames _).mem_iff.mp hx
  have hl2 : l2.map (contentAt (files ++ [(n, FileContent.garbage)])) =
      l2.map (contentAt files) := by
    apply List.map_congr_left
    intro m hm
    apply hpres m
    have hx : m ∈ sortNames (globJson files) := by
      rw [hsplit2]
      exact List.mem_append_right l1 hm
    exact (perm_sortNames _).mem_iff.mp hx
  intro s hs
  have hs' : summarize_result ⟨d, files⟩ = .ok s := hs
  simp only [summarize_result, list_records] at hs'
  cases hF : ((sortNames (globJson files)).map (contentAt files)).foldlM recordStep
      ((0 : Rat), ([] : List (Json × Nat))) with
  | error e =>
    rw [hF] at hs'
    simp at hs'
  | ok acc =>
    rw [hF] at hs'
    have hs2 : Except.ok (Summary.mk (sortNames (globJson files)).length acc.1 acc.2) =
        Except.ok s := hs'
    injection hs2 with hmk
    subst hmk
    show summarize_result ⟨d2, files ++ [(n, FileContent.garbage)]⟩ = _
    simp only [summarize_result, list_records]
    rw [hset, hsplit, List.map_append, List.map_cons, hat_n, hl1, hl2,
        foldlM_recordStep_middle_skip, ← List.map_append, ← hsplit2, hF]
    show Except.ok (Summary.mk (l1 ++ n :: l2).length acc.1 acc.2) = _
    congr 2
    rw [hsplit2, List.length_append, List.length_append, List.length_cons]
    omega

theorem summarize_garbage_only_counts_witness :
    (summarize_records ⟨true, ([] : List (String × FileContent)) ++
        [("bad.json", FileContent.garbage)]⟩).1 =
      .ok ⟨(Summary.mk 0 0 []).count + 1, (Summary.mk 0 0 []).total_amount,
           (Summary.mk 0 0 []).ops⟩ :=
  summarize_garbage_only_counts [] true true "bad.json" (by decide) (by decide)
    ⟨0, 0, []⟩ rfl

/-- C10: when the catalog configuration source file is absent, construction
succeeds with an empty profile mapping: every lookup returns none and
listing returns the empty sequence. -/
theorem catalog_missing_source :
    NetworkCatalog.init none = .ok ⟨[]⟩ ∧
    (∀ name, (NetworkCatalog.mk []).profile name = none) ∧
    (NetworkCatalog.mk []).list_profiles = [] := by
  exact ⟨rfl, fun _ => rfl, rfl⟩

end Aurora
